import Mathlib

/-!
Shallow embedding of the eisc-chat server core (src/api/index.ts and the
message-retrieval helper), together with theorems checking the
specification's claims about the presence registry, the message
broadcast pipeline and history retrieval.

The registry is the in-memory `onlineUsers` array of the server; each
socket event handler is translated into a pure Lean function from the
current registry (and the event's data) to the new registry together
with the list of emitted socket events.  External effects — the clock
readings (`Date.now()`) and the outcome of the Firestore append — enter
the handlers as explicit parameters.
-/

namespace EiscChat

/-- JavaScript `String.prototype.trim()`: drop whitespace from both ends
of the string (the server calls it as `userId.trim()`). -/
def jsTrim (s : String) : String :=
  String.mk (((s.data.dropWhile Char.isWhitespace).reverse.dropWhile Char.isWhitespace).reverse)

/-- Structure `OnlineUser` from src/api/types.ts: one entry of the in-memory
presence registry. -/
structure OnlineUser where
  socketId : String
  userId : String
deriving Repr, DecidableEq

/-- Structure `SendMessagePayload` from src/api/types.ts. -/
structure SendMessagePayload where
  senderId : String
  text : String
deriving Repr, DecidableEq

/-- Structure `Message` from src/api/types.ts: the object persisted to the store. -/
structure Message where
  senderId : String
  text : String
  timestamp : Nat
deriving Repr, DecidableEq

/-- Structure `ReceiveMessagePayload` from src/api/types.ts: the payload of an
outbound `newMessage` event (`id` present only after persistence). -/
structure ReceiveMessagePayload where
  senderId : String
  text : String
  timestamp : Nat
  id : Option String
deriving Repr, DecidableEq

/-- A stored message as returned by `getAllMessages`
(`StoredMessage` of src/api/types.ts with the document id filled in). -/
structure StoredMessage where
  id : String
  senderId : String
  text : String
  timestamp : Nat
deriving Repr, DecidableEq

/-- One outbound socket emission of the server:
`io.emit("usersOnline", …)`, `io.emit("newMessage", …)` (broadcast to
all clients) or `socket.emit("newMessage", …)` (to one connection). -/
inductive Emit where
  | usersOnline (roster : List OnlineUser)
  | newMessageAll (p : ReceiveMessagePayload)
  | newMessageTo (socketId : String) (p : ReceiveMessagePayload)
deriving Repr, DecidableEq

/-- The registry update of the `newUser` handler (src/api/index.ts
lines 84–99): if an entry with this `userId` exists, rewrite its
`socketId` in place via `map`; otherwise `push` the new entry. -/
def updateRoster (onlineUsers : List OnlineUser) (socketId userId : String) :
    List OnlineUser :=
  match onlineUsers.find? (fun u => u.userId == userId) with
  | some _ =>
      onlineUsers.map fun u =>
        if u.userId == userId then { u with socketId := socketId } else u
  | none =>
      onlineUsers ++ [{ socketId := socketId, userId := userId }]

/-- The `newUser` handler (src/api/index.ts lines 76–103): reject an
empty / whitespace-only `userId` (no registry change, no emission),
otherwise update the roster and broadcast it to all clients. -/
def handleNewUser (onlineUsers : List OnlineUser) (socketId userId : String) :
    List OnlineUser × List Emit :=
  if userId = "" ∨ jsTrim userId = "" then
    (onlineUsers, [])
  else
    (updateRoster onlineUsers socketId userId,
     [Emit.usersOnline (updateRoster onlineUsers socketId userId)])

/-- The fixed text of the private error message sent to the sender when
persistence fails (src/api/index.ts line 141). -/
def errorText : String := "Error sending message. Please try again."

/-- The `sendMessage` handler (src/api/index.ts lines 106–146).
`tMsg` is the `Date.now()` reading taken when the `Message` object is
built (before the Firestore `add`), `tErr` the `Date.now()` reading
taken inside the `catch` block, and `appendResult` the outcome of
`db.collection("messages").add`: `some id` on success, `none` when the
append throws.  Returns the list of messages successfully persisted and
the list of emissions. -/
def handleSendMessage (socketId : String) (payload : SendMessagePayload)
    (tMsg tErr : Nat) (appendResult : Option String) :
    List Message × List Emit :=
  if payload.senderId = "" ∨ payload.text = "" then
    ([], [])
  else
    match appendResult with
    | some id =>
        ([{ senderId := payload.senderId, text := payload.text, timestamp := tMsg }],
         [Emit.newMessageAll
            { senderId := payload.senderId, text := payload.text,
              timestamp := tMsg, id := some id }])
    | none =>
        ([],
         [Emit.newMessageTo socketId
            { senderId := "system", text := errorText, timestamp := tErr, id := none }])

/-- The `disconnect` handler (src/api/index.ts lines 149–164): filter
out every entry whose `socketId` matches the disconnected socket and
broadcast the resulting roster unconditionally. -/
def handleDisconnect (onlineUsers : List OnlineUser) (socketId : String) :
    List OnlineUser × List Emit :=
  (onlineUsers.filter (fun u => u.socketId != socketId),
   [Emit.usersOnline (onlineUsers.filter (fun u => u.socketId != socketId))])

/-- One inbound socket event, with the external inputs (clock readings,
persistence outcome) of its handling attached. -/
inductive ClientEvent where
  | newUser (userId : String)
  | sendMessage (payload : SendMessagePayload) (tMsg tErr : Nat)
      (appendResult : Option String)
  | disconnect
deriving Repr, DecidableEq

/-- Result of dispatching one event: the new registry, the messages
persisted during the event and the emissions produced. -/
structure StepResult where
  onlineUsers : List OnlineUser
  persisted : List Message
  emits : List Emit
deriving Repr, DecidableEq

/-- Dispatch of one inbound event from socket `socketId` against the
current registry, as wired in `io.on("connection", …)`. -/
def step (onlineUsers : List OnlineUser) (socketId : String) :
    ClientEvent → StepResult
  | .newUser userId =>
      { onlineUsers := (handleNewUser onlineUsers socketId userId).1,
        persisted := [],
        emits := (handleNewUser onlineUsers socketId userId).2 }
  | .sendMessage payload tMsg tErr appendResult =>
      { onlineUsers := onlineUsers,
        persisted := (handleSendMessage socketId payload tMsg tErr appendResult).1,
        emits := (handleSendMessage socketId payload tMsg tErr appendResult).2 }
  | .disconnect =>
      { onlineUsers := (handleDisconnect onlineUsers socketId).1,
        persisted := [],
        emits := (handleDisconnect onlineUsers socketId).2 }

/-- The registry obtained by running a trace of `(socketId, event)`
pairs from the initial empty `onlineUsers` array. -/
def runServer (trace : List (String × ClientEvent)) : List OnlineUser :=
  trace.foldl (fun users ev => (step users ev.1 ev.2).onlineUsers) []

/-- Modelled from the spec: the external Firestore query
`db.collection("messages").orderBy("timestamp", "desc").limit(limit)`
— the store returns its messages sorted by descending `timestamp`,
truncated to the first `limit` of them. -/
def queryTimestampDesc (store : List StoredMessage) (limit : Nat) :
    List StoredMessage :=
  (List.insertionSort (fun a b => b.timestamp ≤ a.timestamp) store).take limit

/-- Function `getAllMessages` (src/unnamed/part_000 lines 9–34, also the body of
`GET /api/messages` in src/api/index.ts): run the descending query and
reverse the snapshot, returning the oldest message first. -/
def getAllMessages (store : List StoredMessage) (limit : Nat) :
    List StoredMessage :=
  (queryTimestampDesc store limit).reverse

/-- Every entry of the registry carries a `userId` that does not trim to
the empty string (the `newUser` guard never lets one in). -/
def validRegistry (users : List OnlineUser) : Prop :=
  ∀ x ∈ users, jsTrim x.userId ≠ ""

/-- Rewriting the `socketId` of the matching entries leaves the ordered
sequence of `userId` values untouched. -/
theorem userIds_map_update (users : List OnlineUser) (s u : String) :
    (users.map fun x =>
        if x.userId == u then { x with socketId := s } else x).map
      (fun x => x.userId) = users.map (fun x => x.userId) := by
  rw [List.map_map]
  apply List.map_congr_left
  intro a _
  by_cases hb : a.userId = u <;> simp [hb]

/-- The roster update of `newUser` preserves distinctness of the
`userId` column. -/
theorem updateRoster_nodup (users : List OnlineUser) (s u : String)
    (h : (users.map (fun x => x.userId)).Nodup) :
    ((updateRoster users s u).map (fun x => x.userId)).Nodup := by
  unfold updateRoster
  cases hf : users.find? (fun x => x.userId == u) with
  | some x =>
      rw [userIds_map_update]
      exact h
  | none =>
      have hnot := List.find?_eq_none.mp hf
      rw [List.map_append, List.nodup_append]
      refine ⟨h, List.nodup_singleton u, ?_⟩
      intro a ha hb
      rcases List.mem_map.mp ha with ⟨y, hy, rfl⟩
      rcases List.mem_singleton.mp hb with rfl
      exact hnot y hy (by simp)

/-- One dispatched event preserves distinctness of the `userId` column. -/
theorem step_nodup (users : List OnlineUser) (sock : String) (e : ClientEvent)
    (h : (users.map (fun x => x.userId)).Nodup) :
    ((step users sock e).onlineUsers.map (fun x => x.userId)).Nodup := by
  cases e with
  | newUser uid =>
      show (((handleNewUser users sock uid).1).map _).Nodup
      unfold handleNewUser
      split
      · exact h
      · exact updateRoster_nodup users sock uid h
  | sendMessage payload tMsg tErr r => exact h
  | disconnect =>
      exact List.Nodup.sublist
        (List.Sublist.map _ (List.filter_sublist users)) h

/-- One dispatched event preserves validity of the registry. -/
theorem step_valid (users : List OnlineUser) (sock : String) (e : ClientEvent)
    (h : validRegistry users) : validRegistry (step users sock e).onlineUsers := by
  cases e with
  | newUser uid =>
      show validRegistry (handleNewUser users sock uid).1
      unfold handleNewUser
      split
      · exact h
      case isFalse hg =>
        unfold updateRoster
        cases hf : users.find? (fun x => x.userId == uid) with
        | some x =>
            intro z hz
            rcases List.mem_map.mp hz with ⟨y, hy, rfl⟩
            by_cases hb : y.userId == uid <;> simp [hb] <;> exact h y hy
        | none =>
            intro z hz
            rcases List.mem_append.mp hz with hz | hz
            · exact h z hz
            · rcases List.mem_singleton.mp hz with rfl
              exact fun he => hg (Or.inr he)
  | sendMessage payload tMsg tErr r => exact h
  | disconnect =>
      intro z hz
      exact h z (List.mem_filter.mp hz).1

/-- A property preserved by every step holds after folding any trace. -/
theorem foldl_step_preserves {P : List OnlineUser → Prop}
    (hstep : ∀ users sock e, P users → P (step users sock e).onlineUsers) :
    ∀ (trace : List (String × ClientEvent)) (users : List OnlineUser),
      P users →
      P (trace.foldl (fun us ev => (step us ev.1 ev.2).onlineUsers) users) := by
  intro trace
  induction trace with
  | nil => intro users h; exact h
  | cons hd tl ih =>
      intro users h
      exact ih _ (hstep users hd.1 hd.2 h)

/-- Reachable registries have pairwise-distinct `userId` values. -/
theorem runServer_nodup (trace : List (String × ClientEvent)) :
    ((runServer trace).map (fun x => x.userId)).Nodup :=
  foldl_step_preserves (fun users sock e => step_nodup users sock e) trace []
    (by simp)

/-- Reachable registries contain no entry whose `userId` trims to the
empty string. -/
theorem runServer_valid (trace : List (String × ClientEvent)) :
    validRegistry (runServer trace) :=
  foldl_step_preserves (fun users sock e => step_valid users sock e) trace []
    (by intro x hx; cases hx)

/-- C1, counterexample: the claim as stated is false.  The registry
deduplicates only by `userId`, so a single connection that registers two
different user names produces two entries with the same `socketId`:
after `newUser "a"` and `newUser "b"` from socket `"X"` the registry is
`[⟨"X", "a"⟩, ⟨"X", "b"⟩]`, whose `socketId` column is not distinct. -/
theorem registry_socketIds_can_collide :
    ¬ (((runServer [("X", ClientEvent.newUser "a"),
            ("X", ClientEvent.newUser "b")]).map (fun x => x.userId)).Nodup ∧
       ((runServer [("X", ClientEvent.newUser "a"),
            ("X", ClientEvent.newUser "b")]).map (fun x => x.socketId)).Nodup) := by
  decide

/-- C1, amended: for every sequence of events applied to the initially
empty registry, the resulting registry never holds two entries with the
same `userId` (distinctness of `connectionId` values is not maintained:
one connection registering two different user names yields two entries
with the same `socketId`). -/
theorem registry_userIds_pairwise_distinct (trace : List (String × ClientEvent)) :
    ((runServer trace).map (fun x => x.userId)).Nodup :=
  runServer_nodup trace

/-- C2: a `sendMessage` with non-empty `senderId` and `text` whose
persistence succeeds with identifier `id` produces exactly one emission,
a broadcast-to-all `newMessage` carrying the original `senderId` and
`text`, the persisted `id`, and the timestamp `tMsg` taken before the
append (which is at least the handler start time `tStart`); and for any
persistence outcome, every broadcast payload corresponds to a message
that was persisted during the same call. -/
theorem sendMessage_success (sock : String) (payload : SendMessagePayload)
    (tStart tMsg tErr : Nat)
    (hs : payload.senderId ≠ "") (ht : payload.text ≠ "")
    (hclock : tStart ≤ tMsg) :
    (∀ id : String,
        (handleSendMessage sock payload tMsg tErr (some id)).2 =
          [Emit.newMessageAll
            { senderId := payload.senderId, text := payload.text,
              timestamp := tMsg, id := some id }] ∧
        (handleSendMessage sock payload tMsg tErr (some id)).1 =
          [{ senderId := payload.senderId, text := payload.text,
             timestamp := tMsg }] ∧
        tStart ≤ tMsg) ∧
    (∀ (r : Option String) (p : ReceiveMessagePayload),
        Emit.newMessageAll p ∈ (handleSendMessage sock payload tMsg tErr r).2 →
        ({ senderId := p.senderId, text := p.text,
           timestamp := p.timestamp } : Message) ∈
          (handleSendMessage sock payload tMsg tErr r).1) := by
  have hguard : ¬ (payload.senderId = "" ∨ payload.text = "") := by tauto
  constructor
  · intro id
    refine ⟨?_, ?_, hclock⟩ <;> simp [handleSendMessage, hguard]
  · intro r p hp
    unfold handleSendMessage at hp ⊢
    rw [if_neg hguard] at hp ⊢
    cases r with
    | some id =>
        simp only [List.mem_singleton] at hp
        cases hp
        simp
    | none =>
        simp at hp

/-- C2 witness at a concrete input. -/
theorem sendMessage_success_witness :
    (handleSendMessage "s1" ⟨"alice", "hi"⟩ 2 3 (some "m1")).2 =
      [Emit.newMessageAll ⟨"alice", "hi", 2, some "m1"⟩] :=
  ((sendMessage_success "s1" ⟨"alice", "hi"⟩ 1 2 3 (by decide) (by decide)
    (by decide)).1 "m1").1

/-- C3: a `sendMessage` with non-empty `senderId` and `text` whose
persistence fails emits no broadcast-to-all event, persists nothing, and
emits exactly one `newMessage` privately to the originating socket with
`senderId` `"system"`, the fixed error text, the fresh clock reading
`tErr` taken in the catch block, and no `id`. -/
theorem sendMessage_failure (sock : String) (payload : SendMessagePayload)
    (tMsg tErr : Nat) (hs : payload.senderId ≠ "") (ht : payload.text ≠ "") :
    (handleSendMessage sock payload tMsg tErr none).2 =
      [Emit.newMessageTo sock
        { senderId := "system", text := errorText, timestamp := tErr,
          id := none }] ∧
    (handleSendMessage sock payload tMsg tErr none).1 = [] ∧
    (∀ p, Emit.newMessageAll p ∉ (handleSendMessage sock payload tMsg tErr none).2) ∧
    errorText = "Error sending message. Please try again." := by
  have hguard : ¬ (payload.senderId = "" ∨ payload.text = "") := by tauto
  refine ⟨?_, ?_, ?_, rfl⟩ <;> simp [handleSendMessage, hguard]

/-- C3 witness at a concrete input. -/
theorem sendMessage_failure_witness :
    (handleSendMessage "s1" ⟨"alice", "hi"⟩ 2 3 none).2 =
      [Emit.newMessageTo "s1" ⟨"system", errorText, 3, none⟩] :=
  (sendMessage_failure "s1" ⟨"alice", "hi"⟩ 2 3 (by decide) (by decide)).1

/-- C4, counterexample: the claim as stated is false.  The handler only
checks `text` for JavaScript falsiness (the empty string); a
whitespace-only text such as `" "` — which is empty after trimming — is
accepted, persisted and broadcast to all clients rather than dropped. -/
theorem whitespace_text_is_broadcast :
    jsTrim " " = "" ∧
    handleSendMessage "s1" ⟨"alice", " "⟩ 5 6 (some "m1") =
      ([⟨"alice", " ", 5⟩],
       [Emit.newMessageAll ⟨"alice", " ", 5, some "m1"⟩]) := by
  decide

/-- C4, amended: a `sendMessage` whose `text` is the empty string (or
whose `senderId` is empty) persists nothing and emits zero events;
whitespace-only text is not rejected and is processed like any other
message. -/
theorem sendMessage_empty_text_silent (sock : String)
    (payload : SendMessagePayload) (tMsg tErr : Nat) (r : Option String)
    (h : payload.text = "" ∨ payload.senderId = "") :
    handleSendMessage sock payload tMsg tErr r = ([], []) := by
  unfold handleSendMessage
  rw [if_pos (Or.symm h)]

/-- C4 witness at a concrete input. -/
theorem sendMessage_empty_text_silent_witness :
    handleSendMessage "s1" ⟨"alice", ""⟩ 5 6 (some "m1") = ([], []) :=
  sendMessage_empty_text_silent "s1" ⟨"alice", ""⟩ 5 6 (some "m1")
    (Or.inl rfl)

/-- C5: registering a `userId` that already has an entry in a reachable
registry overwrites that entry's `socketId` in place: the roster length
is unchanged, the ordered sequence of `userId` values (hence the
position of the user) is unchanged, the matching entry now carries the
new socket, and the updated roster is broadcast. -/
theorem newUser_reconnect_in_place (trace : List (String × ClientEvent))
    (s u : String) (hmem : ∃ x ∈ runServer trace, x.userId = u) :
    (handleNewUser (runServer trace) s u).1.length = (runServer trace).length ∧
    (handleNewUser (runServer trace) s u).1.map (fun x => x.userId) =
      (runServer trace).map (fun x => x.userId) ∧
    (∀ x ∈ (handleNewUser (runServer trace) s u).1,
        x.userId = u → x.socketId = s) ∧
    (handleNewUser (runServer trace) s u).2 =
      [Emit.usersOnline (handleNewUser (runServer trace) s u).1] := by
  obtain ⟨w, hw, hwu⟩ := hmem
  have hvalid : jsTrim u ≠ "" := hwu ▸ runServer_valid trace w hw
  have hne : u ≠ "" := fun he => hvalid (by rw [he]; decide)
  have hguard : ¬ (u = "" ∨ jsTrim u = "") := by tauto
  have hfound : (runServer trace).find? (fun x => x.userId == u) ≠ none := by
    intro hf
    exact (List.find?_eq_none.mp hf) w hw (by simp [hwu])
  unfold handleNewUser
  rw [if_neg hguard]
  unfold updateRoster
  cases hf : (runServer trace).find? (fun x => x.userId == u) with
  | none => exact absurd hf hfound
  | some y =>
      refine ⟨List.length_map _ _, userIds_map_update _ s u, ?_, rfl⟩
      intro z hz hzu
      rcases List.mem_map.mp hz with ⟨a, _, rfl⟩
      by_cases hb : a.userId = u
      · simp [hb]
      · exfalso
        apply hb
        simp [hb] at hzu

/-- C5 witness at a concrete input. -/
theorem newUser_reconnect_in_place_witness :
    (handleNewUser (runServer [("X", ClientEvent.newUser "alice")])
        "Y" "alice").1.length =
      (runServer [("X", ClientEvent.newUser "alice")]).length :=
  (newUser_reconnect_in_place [("X", ClientEvent.newUser "alice")] "Y" "alice"
    ⟨⟨"X", "alice"⟩, by decide, rfl⟩).1

/-- C6: a `newUser` event whose `userId` trims to the empty string
(empty or whitespace-only) leaves the registry unchanged and emits
nothing. -/
theorem newUser_rejects_blank (users : List OnlineUser) (s u : String)
    (h : jsTrim u = "") :
    handleNewUser users s u = (users, []) := by
  unfold handleNewUser
  rw [if_pos (Or.inr h)]

/-- C6 witness at a concrete input. -/
theorem newUser_rejects_blank_witness :
    handleNewUser [⟨"X", "a"⟩] "Y" "   " = ([⟨"X", "a"⟩], []) :=
  newUser_rejects_blank [⟨"X", "a"⟩] "Y" "   " (by decide)

/-- C7: a disconnect broadcasts the resulting roster unconditionally;
it is a no-op on the registry when no entry carries the disconnected
socket; an entry survives exactly when its `socketId` differs from the
disconnected one; and in the scenario register(A, X), register(A, Y),
disconnect(X) the removal finds nothing and A remains online via Y. -/
theorem disconnect_spec (users : List OnlineUser) (c : String) :
    (handleDisconnect users c).2 =
      [Emit.usersOnline (handleDisconnect users c).1] ∧
    ((∀ x ∈ users, x.socketId ≠ c) → (handleDisconnect users c).1 = users) ∧
    (∀ x, x ∈ (handleDisconnect users c).1 ↔ x ∈ users ∧ x.socketId ≠ c) ∧
    runServer [("X", ClientEvent.newUser "A"), ("Y", ClientEvent.newUser "A"),
      ("X", ClientEvent.disconnect)] = [⟨"Y", "A"⟩] := by
  refine ⟨rfl, ?_, ?_, by decide⟩
  · intro h
    show users.filter _ = users
    rw [List.filter_eq_self]
    intro a ha
    simpa using h a ha
  · intro x
    show x ∈ users.filter _ ↔ _
    rw [List.mem_filter]
    simp

/-- C7 witness at a concrete input. -/
theorem disconnect_spec_witness :
    (handleDisconnect [⟨"Y", "A"⟩] "X").1 = [⟨"Y", "A"⟩] :=
  (disconnect_spec [⟨"Y", "A"⟩] "X").2.1 (by decide)

/-- C8: history retrieval returns at most `limit` messages, ordered
ascending by timestamp, all drawn from the store, and no message left
out of the result has a timestamp above any returned one (the result is
the most recent suffix of the log). -/
theorem getAllMessages_spec (store : List StoredMessage) (limit : Nat) :
    (getAllMessages store limit).length ≤ limit ∧
    List.Pairwise (fun a b => a.timestamp ≤ b.timestamp)
      (getAllMessages store limit) ∧
    (∀ m ∈ getAllMessages store limit, m ∈ store) ∧
    (∀ m ∈ store, m ∉ getAllMessages store limit →
      ∀ r ∈ getAllMessages store limit, m.timestamp ≤ r.timestamp) := by
  haveI htot : IsTotal StoredMessage (fun a b => b.timestamp ≤ a.timestamp) :=
    ⟨fun a b => Or.symm (Nat.le_total a.timestamp b.timestamp)⟩
  haveI htr : IsTrans StoredMessage (fun a b => b.timestamp ≤ a.timestamp) :=
    ⟨fun a b c hab hbc => Nat.le_trans hbc hab⟩
  have hsorted :
      List.Pairwise (fun a b : StoredMessage => b.timestamp ≤ a.timestamp)
        (List.insertionSort (fun a b => b.timestamp ≤ a.timestamp) store) :=
    List.sorted_insertionSort _ store
  have hperm := List.perm_insertionSort
    (fun a b : StoredMessage => b.timestamp ≤ a.timestamp) store
  refine ⟨?_, ?_, ?_, ?_⟩
  · rw [getAllMessages, queryTimestampDesc, List.length_reverse,
      List.length_take]
    exact min_le_left _ _
  · rw [getAllMessages, queryTimestampDesc, List.pairwise_reverse]
    exact List.Pairwise.sublist (List.take_sublist _ _) hsorted
  · intro m hm
    rw [getAllMessages, List.mem_reverse, queryTimestampDesc] at hm
    exact hperm.mem_iff.mp ((List.take_sublist _ _).subset hm)
  · intro m hm hnot r hr
    rw [getAllMessages, List.mem_reverse, queryTimestampDesc] at hnot hr
    have hmL : m ∈ List.insertionSort
        (fun a b : StoredMessage => b.timestamp ≤ a.timestamp) store :=
      hperm.mem_iff.mpr hm
    rw [← List.take_append_drop limit
      (List.insertionSort (fun a b => b.timestamp ≤ a.timestamp) store)]
      at hmL hsorted
    have hcross := (List.pairwise_append.mp hsorted).2.2
    rcases List.mem_append.mp hmL with hmtake | hmdrop
    · exact absurd hmtake hnot
    · exact hcross r (by simpa using hr) m hmdrop

/-- C8 witness at a concrete input. -/
theorem getAllMessages_spec_witness :
    (getAllMessages [⟨"m1", "a", "x", 1⟩, ⟨"m2", "b", "y", 5⟩] 1).length ≤ 1 ∧
    (1 : Nat) ≤ 5 :=
  ⟨(getAllMessages_spec [⟨"m1", "a", "x", 1⟩, ⟨"m2", "b", "y", 5⟩] 1).1,
   (getAllMessages_spec [⟨"m1", "a", "x", 1⟩, ⟨"m2", "b", "y", 5⟩] 1).2.2.2
     ⟨"m1", "a", "x", 1⟩ (by decide) (by decide)
     ⟨"m2", "b", "y", 5⟩ (by decide)⟩

/-- C9: dispatching a `sendMessage` event never changes the registry,
whatever the payload, clock readings or persistence outcome; and any
event that does change the registry is a `newUser` or a `disconnect`. -/
theorem sendMessage_preserves_registry :
    (∀ (users : List OnlineUser) (sock : String)
        (payload : SendMessagePayload) (tMsg tErr : Nat) (r : Option String),
        (step users sock
          (ClientEvent.sendMessage payload tMsg tErr r)).onlineUsers = users) ∧
    (∀ (users : List OnlineUser) (sock : String) (e : ClientEvent),
        (step users sock e).onlineUsers = users ∨
        (∃ uid, e = ClientEvent.newUser uid) ∨ e = ClientEvent.disconnect) := by
  constructor
  · intro users sock payload tMsg tErr r
    rfl
  · intro users sock e
    cases e with
    | newUser uid => exact Or.inr (Or.inl ⟨uid, rfl⟩)
    | sendMessage payload tMsg tErr r => exact Or.inl rfl
    | disconnect => exact Or.inr (Or.inr rfl)

/-- C10: immediately after a disconnect of socket `c`, no entry of the
registry carries `socketId` `c` — the filter removes every matching
entry, even when several entries carried `c`, as the concrete
two-duplicate instance shows. -/
theorem disconnect_clears_socketId (users : List OnlineUser) (c : String) :
    ((handleDisconnect users c).1.all (fun x => x.socketId != c)) = true ∧
    (handleDisconnect [⟨"X", "a"⟩, ⟨"X", "b"⟩] "X").1 = [] := by
  refine ⟨?_, by decide⟩
  rw [List.all_eq_true]
  intro x hx
  exact (List.mem_filter.mp hx).2

end EiscChat
